import Mathlib

/-!
# Verification of the Masterblog post-store service (`backend/backend_app.py`)

This file gives a shallow embedding of the request-handling logic of the
Flask blog-post service and proves properties of it.  The Python module keeps
an ordered sequence of post dictionaries in a JSON file; every handler reads
the whole collection, manipulates it as a plain list, and (for mutations)
rewrites the file.  The embedding models the collection as a `List Post` that
handlers receive and return explicitly; the "file missing" branch
(`read_file()` returning `None`, answered with a 404 in every handler) is
outside the scope of the properties proved here, so handlers take the decoded
collection directly.

Unhandled Python exceptions (a `ValueError` from `list.remove`, an
`AttributeError` from `None.update`, a `TypeError` from slicing with a
non-integer) abort the request with an HTTP 500; they are modelled by a
dedicated `crash` constructor in each handler's result type.
-/

namespace Masterblog

/-- A post record.  Posts created through the API always carry `id`, `title`
and `content`; `author` and `date` are dictionary keys that may be absent,
hence `Option`.  (`post["author"]` on a record without the key raises
`KeyError` in Python; the handlers model that as a crash.) -/
structure Post where
  id : Int
  title : String
  content : String
  author : Option String
  date : Option String
  deriving Repr, DecidableEq

/-- The JSON body of a create request, restricted to the dictionary keys the
service ever reads (`title`, `content`) plus the optional passthrough keys
(`author`, `date`).  A key that is absent from the dictionary is `none`. -/
structure NewPostBody where
  title : Option String
  content : Option String
  author : Option String
  date : Option String
  deriving Repr, DecidableEq

/-- The JSON body of an update request, over the dictionary keys of the data
model.  `idv` models a literal `"id"` key in the body: `update_post` merges
every key of the body into the record, so a body carrying `"id"` overwrites
the stored id. -/
structure UpdateBody where
  idv : Option Int
  titlev : Option String
  contentv : Option String
  authorv : Option String
  datev : Option String
  deriving Repr, DecidableEq

/-- `new_post != {}` in Python: the body dictionary has at least one key.
Here: the body is empty iff every modelled key is absent. -/
def UpdateBody.isEmptyDict (b : UpdateBody) : Bool :=
  b.idv.isNone && b.titlev.isNone && b.contentv.isNone &&
    b.authorv.isNone && b.datev.isNone

/-- `post.update(new_post)` (shallow dictionary merge): every key present in
the body overwrites the corresponding key of the record. -/
def applyUpdate (p : Post) (b : UpdateBody) : Post :=
  { id := b.idv.getD p.id
    title := b.titlev.getD p.title
    content := b.contentv.getD p.content
    author := match b.authorv with | some a => some a | none => p.author
    date := match b.datev with | some d => some d | none => p.date }

/-! ## String helpers (`str.lower`, `str.strip`, `in`, `int()`) -/

/-- `s.lower()`.  Python lowercases full Unicode; the service only ever
compares the characters actually stored, and `Char.toLower` agrees with
Python on them (ASCII); this is the standard shallow embedding. -/
def pyLower (s : String) : String :=
  String.mk (s.data.map Char.toLower)

/-- `s.strip()`: remove leading and trailing whitespace. -/
def pyStrip (s : String) : String :=
  String.mk (((s.data.dropWhile Char.isWhitespace).reverse.dropWhile
      Char.isWhitespace).reverse)

/-- `needle` is a prefix of `hay` (character lists). -/
def startsWithL : List Char → List Char → Bool
  | [], _ => true
  | _ :: _, [] => false
  | a :: as, b :: bs => a == b && startsWithL as bs

/-- `needle` occurs as a contiguous run inside `hay` (character lists). -/
def containsL (needle : List Char) : List Char → Bool
  | [] => needle.isEmpty
  | b :: bs => startsWithL needle (b :: bs) || containsL needle bs

/-- The Python substring test `needle in hay` on strings. -/
def pyIn (needle hay : String) : Bool :=
  containsL needle.data hay.data

/-- `int(s)`: optional surrounding whitespace, optional sign, then a
non-empty digit run; anything else raises `ValueError` (here: `none`).
(Underscore digit grouping and non-ASCII digits are not modelled; no claim
depends on them.) -/
def digitsVal (acc : Nat) : List Char → Option Nat
  | [] => some acc
  | c :: rest =>
      if c.isDigit then digitsVal (acc * 10 + (c.toNat - 48)) rest else none

def pyInt (s : String) : Option Int :=
  match (pyStrip s).data with
  | [] => none
  | '+' :: rest =>
      if rest.isEmpty then none else (digitsVal 0 rest).map Int.ofNat
  | '-' :: rest =>
      if rest.isEmpty then none
      else (digitsVal 0 rest).map (fun n => -(n : Int))
  | cs => (digitsVal 0 cs).map Int.ofNat

/-! ## Python list slicing `l[a:b]` -/

/-- Normalise one slice bound the way CPython does for step 1: a negative
index counts from the end (clamped below at 0), a non-negative index is
clamped above at the length. -/
def pyNorm (n : Nat) (i : Int) : Nat :=
  if i < 0 then (i + n).toNat else min i.toNat n

/-- `l[a:b]` for integer bounds `a`, `b` (step 1). -/
def pySlice {α : Type} (l : List α) (a b : Int) : List α :=
  let a' := pyNorm l.length a
  let b' := pyNorm l.length b
  (l.drop a').take (b' - a')

/-- Specification-side slice: the elements of `l` sitting at zero-based
positions `i` with `a ≤ i < b`, in order.  This is the literal reading of
"the slice over the half-open index range `[a, b)`". -/
def idxSlice {α : Type} (l : List α) (a b : Int) : List α :=
  ((List.range l.length).filter
      (fun (i : Nat) => decide (a ≤ (i : Int) ∧ (i : Int) < b))).filterMap
    (fun i => l.get? i)

/-! ## `strptime("%Y-%m-%d")` and stable sorting (`sorted`) -/

/-- `datetime.strptime(s, "%Y-%m-%d").date()`, encoded as the single number
`y*10000 + m*100 + d` so that the numeric order is the chronological order.
A string that does not parse raises `ValueError` (here: `none`).  (The model
requires zero-padded month/day; no claim depends on the lenient widths
`strptime` also accepts.) -/
def pyParseDate (s : String) : Option Nat :=
  match s.data with
  | [y1, y2, y3, y4, '-', m1, m2, '-', d1, d2] =>
      if (y1.isDigit && y2.isDigit && y3.isDigit && y4.isDigit &&
          m1.isDigit && m2.isDigit && d1.isDigit && d2.isDigit) then
        let y := ((y1.toNat - 48) * 1000 + (y2.toNat - 48) * 100 +
          (y3.toNat - 48) * 10 + (y4.toNat - 48))
        let m := (m1.toNat - 48) * 10 + (m2.toNat - 48)
        let d := (d1.toNat - 48) * 10 + (d2.toNat - 48)
        if 1 ≤ m ∧ m ≤ 12 ∧ 1 ≤ d ∧ d ≤ 31 then some (y * 10000 + m * 100 + d)
        else none
      else none
  | _ => none

instance decKeyLe {β : Type} [LinearOrder β] (key : Post → β) :
    DecidableRel (fun a b : Post => key a ≤ key b) :=
  fun a b => inferInstanceAs (Decidable (key a ≤ key b))

instance decKeyGe {β : Type} [LinearOrder β] (key : Post → β) :
    DecidableRel (fun a b : Post => key b ≤ key a) :=
  fun a b => inferInstanceAs (Decidable (key b ≤ key a))

/-- `sorted(posts, key=key, reverse=(direction == "desc"))`.  Python's sort
is stable; a stable ascending sort is `List.insertionSort` with `key a ≤ key
b`, and `reverse=True` (documented to keep equal-keyed elements in their
original order) is the stable sort with the flipped comparator `key b ≤ key
a`: both place strictly-smaller keys later and keep ties in input order. -/
def pySortBy {β : Type} [LinearOrder β] (key : Post → β) (direction : String)
    (posts : List Post) : List Post :=
  if direction == "desc" then
    List.insertionSort (fun a b => key b ≤ key a) posts
  else
    List.insertionSort (fun a b => key a ≤ key b) posts

/-! ## The handlers -/

/-- `find_post_by_id`: the first post whose `id` equals `post_id`, else
`None`. -/
def find_post_by_id (posts : List Post) (post_id : Int) : Option Post :=
  match posts with
  | [] => none
  | p :: rest =>
      if p.id == post_id then some p else find_post_by_id rest post_id

/-- `validate_post_data`: the body has both a `title` and a `content` key and
neither value is the empty string. -/
def validate_post_data (new_post : NewPostBody) : Bool :=
  (new_post.title.isSome && new_post.content.isSome) &&
    (new_post.title != some "" && new_post.content != some "")

/-- `generate_new_id`: `max(post['id'] for post in posts) + 1`.  Only called
on a non-empty collection (`max()` of an empty iterable would raise). -/
def generate_new_id (posts : List Post) : Int :=
  (match posts.map Post.id with
   | [] => 0
   | x :: xs => xs.foldl max x) + 1

/-- `add_new_post`: choose id 1 for an empty collection, else
`generate_new_id`, write the id into the body dictionary, and append it.
Returns the new collection and the stored record. -/
def add_new_post (posts : List Post) (new_post : NewPostBody) :
    List Post × Post :=
  let new_id : Int := if posts.isEmpty then 1 else generate_new_id posts
  let p : Post :=
    { id := new_id
      title := new_post.title.getD ""
      content := new_post.content.getD ""
      author := new_post.author
      date := new_post.date }
  (posts ++ [p], p)

/-- Result of the create endpoint: HTTP status, response record (the error
body for 400 is the fixed error object, modelled as `none`), and the stored
collection after the request. -/
inductive AddResult where
  | resp (status : Nat) (body : Option Post) (stored : List Post)
  deriving Repr, DecidableEq

/-- `add_post` (`POST /api/posts`): validate, then `add_new_post`, then 201
with the stored record. -/
def add_post (posts : List Post) (new_post : NewPostBody) : AddResult :=
  if !validate_post_data new_post then AddResult.resp 400 none posts
  else
    let r := add_new_post posts new_post
    AddResult.resp 201 (some r.2) r.1

/-- Result of the delete endpoint.  `crash` models the uncaught `ValueError`
raised by `posts.remove(None)` (HTTP 500). -/
inductive DelResult where
  | crash
  | resp (status : Nat) (stored : List Post)
  deriving Repr, DecidableEq

/-- `delete_post` (`DELETE /api/posts/<id>`): look the post up and
`posts.remove(post)` it — with no `None` check, so a missing id crashes. -/
def delete_post (posts : List Post) (post_id : Int) : DelResult :=
  match find_post_by_id posts post_id with
  | none => DelResult.crash
  | some post => DelResult.resp 200 (posts.erase post)

/-- `validate_post_data_update`: some key of the body is `title` or
`content`. -/
def validate_post_data_update (new_post : UpdateBody) : Bool :=
  new_post.titlev.isSome || new_post.contentv.isSome

/-- Replace the first post whose `id` is `post_id` by `p'` — the effect of
mutating, in place, the record `find_post_by_id` returned. -/
def update_in_place (posts : List Post) (post_id : Int) (p' : Post) :
    List Post :=
  match posts with
  | [] => []
  | q :: qs =>
      if q.id == post_id then p' :: qs
      else q :: update_in_place qs post_id p'

/-- Result of the update endpoint.  `crash` models the uncaught
`AttributeError` raised by `None.update(...)` (HTTP 500). -/
inductive UpdResult where
  | crash
  | resp (status : Nat) (body : Option Post) (stored : List Post)
  deriving Repr, DecidableEq

/-- `update_post` (`PUT /api/posts/<id>`): look the post up (no `None`
check), reject a non-empty body with no recognised key (400), then merge the
body into the record — crashing when the lookup returned `None`. -/
def update_post (posts : List Post) (post_id : Int) (new_post : UpdateBody) :
    UpdResult :=
  if !new_post.isEmptyDict && !validate_post_data_update new_post then
    UpdResult.resp 400 none posts
  else
    match find_post_by_id posts post_id with
    | none => UpdResult.crash
    | some post =>
        let post' := applyUpdate post new_post
        UpdResult.resp 200 (some post') (update_in_place posts post_id post')

/-- `get_search_term`: the first of `title`, `content`, `author`, `date`
present among the query parameters, with its value. -/
def get_search_term (titleArg contentArg authorArg dateArg : Option String) :
    Option (String × String) :=
  match titleArg with
  | some t => some ("title", t)
  | none =>
    match contentArg with
    | some c => some ("content", c)
    | none =>
      match authorArg with
      | some a => some ("author", a)
      | none =>
        match dateArg with
        | some d => some ("date", d)
        | none => none

/-- `post[key]` for the four searchable keys; `none` models a `KeyError`. -/
def postField : String → Post → Option String
  | "title", p => some p.title
  | "content", p => some p.content
  | "author", p => p.author
  | "date", p => p.date
  | _, _ => none

/-- Result of the search endpoint.  `crash` models a `KeyError` from
`post[key]` on a record lacking the key. -/
inductive SearchResult where
  | crash
  | resp (status : Nat) (found : Option (List Post))
  deriving Repr, DecidableEq

/-- `search_post` (`GET /api/posts/search`): 400 when no recognised
parameter is present; otherwise keep, in order, the posts whose chosen field
(lowercased) contains the stripped, lowercased term. -/
def search_post (titleArg contentArg authorArg dateArg : Option String)
    (posts : List Post) : SearchResult :=
  match get_search_term titleArg contentArg authorArg dateArg with
  | none => SearchResult.resp 400 none
  | some (key, term) =>
    match posts.mapM (postField key) with
    | none => SearchResult.crash
    | some _ =>
        SearchResult.resp 200 (some (posts.filter (fun p =>
          pyIn (pyLower (pyStrip term)) (pyLower ((postField key p).getD "")))))

/-- `sort_posts`'s Python return value: `False` (invalid `sort`/`direction`),
a sorted list, or `None` (no `sort` parameter); `crash` models a `KeyError`
or `strptime` `ValueError` evaluating a sort key. -/
inductive SortRes where
  | pyFalse
  | pyList (l : List Post)
  | pyNone
  | crash
  deriving Repr, DecidableEq

/-- `sort_posts`: validate `sort` and `direction`, then return the stable
sort of the collection by the chosen field (chronologically for `date`). -/
def sort_posts (sortArg dirArg : Option String) (posts : List Post) :
    SortRes :=
  match sortArg with
  | none => SortRes.pyNone
  | some sort =>
    let direction := dirArg.getD "asc"
    if !((sort == "title" || sort == "content" || sort == "author" ||
          sort == "date") && (direction == "asc" || direction == "desc"))
    then SortRes.pyFalse
    else if sort == "date" then
      match posts.mapM (fun p => p.date.bind pyParseDate) with
      | none => SortRes.crash
      | some _ =>
          SortRes.pyList
            (pySortBy (fun p => (p.date.bind pyParseDate).getD 0)
              direction posts)
    else if sort == "author" then
      match posts.mapM (fun p => p.author) with
      | none => SortRes.crash
      | some _ =>
          SortRes.pyList (pySortBy (fun p => p.author.getD "") direction posts)
    else if sort == "title" then
      SortRes.pyList (pySortBy Post.title direction posts)
    else
      SortRes.pyList (pySortBy Post.content direction posts)

/-- `pagination()`: parse `page` (default 1) and `limit` (default 100) with
`int()` and return the slice bounds `((page-1)*limit, (page-1)*limit +
limit)`.  A `ValueError` makes the function return the 400 error *tuple*
instead of a pair of indices — modelled as `none`; the caller unpacks it
blindly, so the error only surfaces later (see `get_posts`). -/
def pagination (pageArg limitArg : Option String) : Option (Int × Int) := do
  let page ← match pageArg with
    | none => some 1
    | some s => pyInt s
  let limit ← match limitArg with
    | none => some 100
    | some s => pyInt s
  some ((page - 1) * limit, (page - 1) * limit + limit)

/-- Result of the list endpoint.  `crash` models the uncaught `TypeError`
raised by slicing a list with the Flask `Response` object that `pagination`
returned in place of integer bounds (HTTP 500). -/
inductive GetResult where
  | crash
  | resp (status : Nat) (body : Option (List Post))
  deriving Repr, DecidableEq

/-- `get_posts` (`GET /api/posts`): compute the slice bounds, sort if asked,
answer 400 for a falsy `sort_posts` result (`False` *or an empty sorted
list*), and slice.  When `pagination` "returned 400", the slice raises
`TypeError` — but only in the branches that actually slice. -/
def get_posts (pageArg limitArg sortArg dirArg : Option String)
    (posts : List Post) : GetResult :=
  let pag := pagination pageArg limitArg
  match sort_posts sortArg dirArg posts with
  | SortRes.crash => GetResult.crash
  | SortRes.pyFalse => GetResult.resp 400 none
  | SortRes.pyList l =>
      if l.isEmpty then GetResult.resp 400 none
      else
        match pag with
        | none => GetResult.crash
        | some (s, e) => GetResult.resp 200 (some (pySlice l s e))
  | SortRes.pyNone =>
      match pag with
      | none => GetResult.crash
      | some (s, e) => GetResult.resp 200 (some (pySlice posts s e))

/-! ## Specification-side predicates -/

/-- `needle` occurs as a contiguous substring of `hay`: the literal reading
of "contains … as a substring". -/
def specSubstring (needle hay : String) : Prop :=
  ∃ u v : List Char, hay.data = u ++ needle.data ++ v

/-- "The field contains the search term as a case-insensitive substring". -/
def specMatches (term field : String) : Prop :=
  specSubstring (pyLower term) (pyLower field)

/-! ## Helper lemmas: substring containment -/

lemma startsWithL_iff :
    ∀ n h : List Char, startsWithL n h = true ↔ ∃ v, h = n ++ v := by
  intro n
  induction n with
  | nil => intro h; simp [startsWithL]
  | cons a as ih =>
    intro h
    cases h with
    | nil =>
        simp [startsWithL]
    | cons b bs =>
        rw [startsWithL]
        simp only [Bool.and_eq_true, beq_iff_eq, ih bs]
        constructor
        · rintro ⟨rfl, v, rfl⟩
          exact ⟨v, rfl⟩
        · rintro ⟨v, hv⟩
          injection hv with h1 h2
          exact ⟨h1.symm, v, h2⟩

lemma containsL_iff :
    ∀ n h : List Char, containsL n h = true ↔ ∃ u v, h = u ++ n ++ v := by
  intro n h
  induction h with
  | nil =>
    simp only [containsL, List.isEmpty_iff]
    constructor
    · rintro rfl; exact ⟨[], [], rfl⟩
    · rintro ⟨u, v, huv⟩
      rcases List.append_eq_nil.mp huv.symm with ⟨h1, h2⟩
      exact (List.append_eq_nil.mp h1).2
  | cons b bs ih =>
    rw [containsL]
    simp only [Bool.or_eq_true, startsWithL_iff, ih]
    constructor
    · rintro (⟨v, hv⟩ | ⟨u, v, huv⟩)
      · exact ⟨[], v, by simpa using hv⟩
      · exact ⟨b :: u, v, by simp [huv]⟩
    · rintro ⟨u, v, huv⟩
      cases u with
      | nil => exact Or.inl ⟨v, by simpa using huv⟩
      | cons c cs =>
          injection huv with h1 h2
          exact Or.inr ⟨cs, v, h2⟩

lemma pyIn_iff (needle hay : String) :
    pyIn needle hay = true ↔ specSubstring needle hay := by
  unfold pyIn specSubstring
  exact containsL_iff needle.data hay.data

/-! ## Helper lemmas: slicing -/

lemma idxSlice_nil {α : Type} (a b : Int) : idxSlice ([] : List α) a b = [] := by
  simp [idxSlice]

lemma idxSlice_cons {α : Type} (x : α) (xs : List α) (a b : Int) :
    idxSlice (x :: xs) a b =
      (if a ≤ 0 ∧ 0 < b then [x] else []) ++ idxSlice xs (a - 1) (b - 1) := by
  unfold idxSlice
  rw [List.length_cons, List.range_succ_eq_map, List.filter_cons]
  have hrw :
      List.filter (fun (i : Nat) => decide (a ≤ (i : Int) ∧ (i : Int) < b))
          (List.map Nat.succ (List.range xs.length)) =
        List.map Nat.succ
          (List.filter
            (fun (i : Nat) => decide (a - 1 ≤ (i : Int) ∧ (i : Int) < b - 1))
            (List.range xs.length)) := by
    rw [List.filter_map]
    congr 1
    apply List.filter_congr
    intro i _
    rw [Function.comp_apply, decide_eq_decide]
    have : ((Nat.succ i : Nat) : Int) = (i : Int) + 1 := by push_cast; ring
    rw [this]
    omega
  have hmap :
      ∀ L : List Nat,
        List.filterMap (fun i => (x :: xs).get? i) (List.map Nat.succ L) =
          List.filterMap (fun i => xs.get? i) L := by
    intro L
    rw [List.filterMap_map]
    congr 1
  rw [hrw]
  by_cases h : a ≤ 0 ∧ 0 < b
  · have hd : decide (a ≤ ((0 : Nat) : Int) ∧ ((0 : Nat) : Int) < b) = true := by
      simp only [Nat.cast_zero]
      exact decide_eq_true h
    rw [hd, if_pos rfl, if_pos h, List.filterMap_cons, hmap]
    rfl
  · have hd : decide (a ≤ ((0 : Nat) : Int) ∧ ((0 : Nat) : Int) < b) = false := by
      simp only [Nat.cast_zero]
      exact decide_eq_false h
    rw [hd, if_neg Bool.false_ne_true, if_neg h, hmap]
    rfl

lemma idxSlice_eq_drop_take {α : Type} (l : List α) :
    ∀ a b : Int, idxSlice l a b = (l.drop a.toNat).take (b.toNat - a.toNat) := by
  induction l with
  | nil => intro a b; simp [idxSlice_nil]
  | cons x xs ih =>
    intro a b
    rw [idxSlice_cons, ih (a - 1) (b - 1)]
    by_cases ha : a ≤ 0
    · by_cases hb : 0 < b
      · have h1 : a.toNat = 0 := by omega
        have h2 : (a - 1).toNat = 0 := by omega
        have h3 : b.toNat = (b - 1).toNat + 1 := by omega
        rw [if_pos ⟨ha, hb⟩, h1, h2, h3]
        simp [List.take_succ_cons]
      · have h1 : b.toNat - a.toNat = 0 := by omega
        have h2 : (b - 1).toNat - (a - 1).toNat = 0 := by omega
        rw [if_neg (by omega), h1, h2]
        simp
    · have h2 : b.toNat - a.toNat = (b - 1).toNat - (a - 1).toNat := by omega
      have h1 : a.toNat = (a - 1).toNat + 1 := by omega
      rw [if_neg (by omega), h2, h1]
      simp [List.drop_succ_cons]

lemma pySlice_eq_idxSlice {α : Type} (l : List α) (a b : Int)
    (ha : 0 ≤ a) (hab : a ≤ b) : pySlice l a b = idxSlice l a b := by
  rw [idxSlice_eq_drop_take]
  simp only [pySlice, pyNorm]
  rw [if_neg (by omega), if_neg (by omega)]
  by_cases h : a.toNat ≤ l.length
  · rw [min_eq_left h]
    by_cases h2 : b.toNat ≤ l.length
    · rw [min_eq_left h2]
    · rw [min_eq_right (by omega)]
      have hlen : (l.drop a.toNat).length = l.length - a.toNat :=
        List.length_drop _ _
      rw [List.take_of_length_le (by omega), List.take_of_length_le (by omega)]
  · have hma : min a.toNat l.length = l.length := min_eq_right (by omega)
    rw [hma, List.drop_length, List.drop_eq_nil_of_le (by omega)]
    simp

/-! ## Helper lemmas: `max` folds (id generation) -/

lemma le_foldl_max :
    ∀ (l : List Int) (a x : Int), x = a ∨ x ∈ l → x ≤ l.foldl max a := by
  intro l
  induction l with
  | nil => rintro a x (rfl | hx)
           · exact le_refl x
           · cases hx
  | cons y ys ih =>
    rintro a x (rfl | hx)
    · calc x ≤ max x y := le_max_left x y
        _ ≤ List.foldl max (max x y) ys := ih (max x y) _ (Or.inl rfl)
    · rcases List.mem_cons.mp hx with rfl | hx'
      · calc x ≤ max a x := le_max_right a x
          _ ≤ List.foldl max (max a x) ys := ih (max a x) _ (Or.inl rfl)
      · exact ih (max a y) x (Or.inr hx')

lemma foldl_max_mem :
    ∀ (l : List Int) (a : Int), l.foldl max a = a ∨ l.foldl max a ∈ l := by
  intro l
  induction l with
  | nil => intro a; exact Or.inl rfl
  | cons y ys ih =>
    intro a
    rcases ih (max a y) with h | h
    · rcases max_choice a y with hm | hm
      · exact Or.inl (by rw [List.foldl_cons, h, hm])
      · exact Or.inr (by rw [List.foldl_cons, h, hm]; exact List.mem_cons_self _ _)
    · exact Or.inr (List.mem_cons_of_mem _ h)

/-! ## Helper lemmas: stability of the sort -/

lemma filter_orderedInsert {α : Type} (r : α → α → Prop) [DecidableRel r]
    (p : α → Bool) (x : α) (hx : p x = true) (hr : ∀ y, p y = true → r x y) :
    ∀ l : List α, (l.orderedInsert r x).filter p = x :: l.filter p := by
  intro l
  induction l with
  | nil => simp [List.orderedInsert, hx]
  | cons y ys ih =>
    rw [List.orderedInsert]
    by_cases h : r x y
    · rw [if_pos h, List.filter_cons, hx]
      rfl
    · have hy : p y = false := by
        cases hpy : p y
        · rfl
        · exact absurd (hr y hpy) h
      rw [if_neg h, List.filter_cons, hy, List.filter_cons, hy]
      exact ih

lemma filter_orderedInsert_neg {α : Type} (r : α → α → Prop) [DecidableRel r]
    (p : α → Bool) (x : α) (hx : p x = false) :
    ∀ l : List α, (l.orderedInsert r x).filter p = l.filter p := by
  intro l
  induction l with
  | nil => simp [List.orderedInsert, hx]
  | cons y ys ih =>
    rw [List.orderedInsert]
    by_cases h : r x y
    · rw [if_pos h, List.filter_cons, hx, if_neg Bool.false_ne_true]
    · rw [if_neg h, List.filter_cons, List.filter_cons]
      cases hpy : p y
      · rw [if_neg Bool.false_ne_true, if_neg Bool.false_ne_true]
        exact ih
      · rw [if_pos rfl, if_pos rfl, ih]

lemma filter_insertionSort {α : Type} (r : α → α → Prop) [DecidableRel r]
    (p : α → Bool) (hp : ∀ x y, p x = true → p y = true → r x y) :
    ∀ l : List α, (l.insertionSort r).filter p = l.filter p := by
  intro l
  induction l with
  | nil => rfl
  | cons x xs ih =>
    rw [List.insertionSort]
    cases hx : p x
    · rw [filter_orderedInsert_neg r p x hx, ih, List.filter_cons, hx,
        if_neg Bool.false_ne_true]
    · rw [filter_orderedInsert r p x hx (fun y hy => hp x y hx hy), ih,
        List.filter_cons, hx, if_pos rfl]

instance isTotalKeyLe {β : Type} [LinearOrder β] (key : Post → β) :
    IsTotal Post (fun a b => key a ≤ key b) :=
  ⟨fun a b => le_total (key a) (key b)⟩

instance isTotalKeyGe {β : Type} [LinearOrder β] (key : Post → β) :
    IsTotal Post (fun a b => key b ≤ key a) :=
  ⟨fun a b => le_total (key b) (key a)⟩

instance isTransKeyLe {β : Type} [LinearOrder β] (key : Post → β) :
    IsTrans Post (fun a b => key a ≤ key b) :=
  ⟨fun _ _ _ h1 h2 => le_trans h1 h2⟩

instance isTransKeyGe {β : Type} [LinearOrder β] (key : Post → β) :
    IsTrans Post (fun a b => key b ≤ key a) :=
  ⟨fun _ _ _ h1 h2 => le_trans h2 h1⟩

/-! ## Helper lemmas: update and mapM -/

lemma update_in_place_map_id (pid : Int) (p' : Post) :
    ∀ (posts : List Post) (p : Post), find_post_by_id posts pid = some p →
      p'.id = p.id →
      (update_in_place posts pid p').map Post.id = posts.map Post.id := by
  intro posts
  induction posts with
  | nil => intro p h _; simp [find_post_by_id] at h
  | cons q qs ih =>
    intro p h hid
    rw [find_post_by_id] at h
    rw [update_in_place]
    by_cases hq : q.id == pid
    · rw [if_pos hq] at h
      rw [if_pos hq]
      injection h with h
      subst h
      simp [hid]
    · rw [if_neg hq] at h
      rw [if_neg hq, List.map_cons, List.map_cons, ih p h hid]

lemma mapM_field_some (key : String) (posts : List Post)
    (h : ∀ p ∈ posts, (postField key p).isSome = true) :
    ∃ l, posts.mapM (postField key) = some l := by
  induction posts with
  | nil => exact ⟨[], rfl⟩
  | cons p ps ih =>
    obtain ⟨b, hb⟩ :=
      Option.isSome_iff_exists.mp (h p (List.mem_cons_self _ _))
    obtain ⟨l, hl⟩ := ih (fun q hq => h q (List.mem_cons_of_mem _ hq))
    exact ⟨b :: l, by rw [List.mapM_cons, hb, hl]; rfl⟩

lemma mapM_field_none (key : String) (posts : List Post)
    (h : ∃ p ∈ posts, postField key p = none) :
    posts.mapM (postField key) = none := by
  induction posts with
  | nil =>
    obtain ⟨p, hp, _⟩ := h
    cases hp
  | cons q qs ih =>
    obtain ⟨p, hp, hnone⟩ := h
    rcases List.mem_cons.mp hp with rfl | hp'
    · rw [List.mapM_cons, hnone]
      rfl
    · cases hq : postField key q with
      | none =>
          rw [List.mapM_cons, hq]
          rfl
      | some b =>
          simp only [List.mapM_cons, hq, ih ⟨p, hp', hnone⟩]
          rfl

/-! ## Sample data for witnesses -/

def samplePost1 : Post := ⟨1, "Aa", "c1", none, none⟩
def samplePost2 : Post := ⟨2, "B", "c2", none, none⟩
def samplePost3 : Post := ⟨3, "Aa", "c3", none, none⟩
def samplePost4 : Post := ⟨4, "C", "c4", none, none⟩
def samplePost5 : Post := ⟨5, "B", "c5", none, none⟩

def samplePosts : List Post :=
  [samplePost1, samplePost2, samplePost3, samplePost4, samplePost5]

/-! ## Claims -/

/-- C1: the claim says a delete request for an id not present in the
collection answers 404 with the collection unchanged.  The code never checks
`find_post_by_id` for `None`: `posts.remove(None)` raises an uncaught
`ValueError`, so the request dies with HTTP 500 instead of the 404 response
(the collection is indeed left unchanged, as nothing was written).  This
theorem shows the crash on every missing id. -/
theorem C1_delete_missing_id_crashes (posts : List Post) (post_id : Int)
    (h : find_post_by_id posts post_id = none) :
    delete_post posts post_id = DelResult.crash := by
  simp [delete_post, h]

theorem C1_delete_missing_id_crashes_witness :
    delete_post [samplePost1] 2 = DelResult.crash :=
  C1_delete_missing_id_crashes [samplePost1] 2 (by decide)

/-- C2: the claim says an update request for an unknown id answers 404 with
the collection unchanged.  The code never checks `find_post_by_id` for
`None`; with a body containing a recognised key it reaches
`None.update(...)`, an uncaught `AttributeError` (HTTP 500), never a 404. -/
theorem C2_update_missing_id_crashes (posts : List Post) (post_id : Int)
    (b : UpdateBody) (h : find_post_by_id posts post_id = none)
    (hv : validate_post_data_update b = true) :
    update_post posts post_id b = UpdResult.crash := by
  have he : b.isEmptyDict = false := by
    rcases Bool.or_eq_true _ _ |>.mp hv with hs | hs
    · obtain ⟨a, ha⟩ := Option.isSome_iff_exists.mp hs
      simp [UpdateBody.isEmptyDict, ha]
    · obtain ⟨a, ha⟩ := Option.isSome_iff_exists.mp hs
      simp [UpdateBody.isEmptyDict, ha]
  simp [update_post, he, hv, h]

theorem C2_update_missing_id_crashes_witness :
    update_post [samplePost1] 2 ⟨none, none, some "x", none, none⟩ =
      UpdResult.crash :=
  C2_update_missing_id_crashes [samplePost1] 2 ⟨none, none, some "x", none, none⟩
    (by decide) (by decide)

/-- C3: the claim says a list request whose `page` or `limit` does not parse
as an integer answers a generic 400.  `pagination()` does build that 400
tuple, but `get_posts` unpacks it blindly into slice bounds, and slicing
with a `Response` object raises an uncaught `TypeError` (HTTP 500): with no
`sort` parameter the endpoint crashes instead of answering 400. -/
theorem C3_bad_pagination_crashes (pageArg limitArg : Option String)
    (posts : List Post) (h : pagination pageArg limitArg = none) :
    get_posts pageArg limitArg none none posts = GetResult.crash := by
  simp [get_posts, sort_posts, h]

theorem C3_bad_pagination_crashes_witness :
    get_posts (some "abc") none none none [samplePost1] = GetResult.crash :=
  C3_bad_pagination_crashes (some "abc") none [samplePost1] (by decide)

/-- C4, counterexample: the claim says the update operation never changes a
post's id.  The body is merged wholesale, so a body carrying an `"id"` key
overwrites the stored id: updating post 1 with `{"id": 5, "title": "t"}`
stores and returns a record whose id is 5, not 1. -/
theorem C4_update_can_change_id :
    update_post [⟨1, "a", "b", none, none⟩] 1 ⟨some 5, some "t", none, none, none⟩ =
      UpdResult.resp 200 (some ⟨5, "t", "b", none, none⟩) [⟨5, "t", "b", none, none⟩] ∧
    (⟨5, "t", "b", none, none⟩ : Post).id ≠ (⟨1, "a", "b", none, none⟩ : Post).id := by
  exact ⟨by decide, by decide⟩

/-- C4, amended: provided the update body does not itself contain an `"id"`
key, every response of the update operation leaves the ids of the stored
collection unchanged (in particular the id of the post it modifies). -/
theorem C4_update_preserves_ids_without_id_key (posts : List Post)
    (post_id : Int) (b : UpdateBody) (hb : b.idv = none) :
    ∀ st r posts', update_post posts post_id b = UpdResult.resp st r posts' →
      posts'.map Post.id = posts.map Post.id := by
  intro st r posts' h
  unfold update_post at h
  by_cases hg : !b.isEmptyDict && !validate_post_data_update b
  · rw [if_pos hg] at h
    injection h with h1 h2 h3
    rw [← h3]
  · rw [if_neg hg] at h
    cases hf : find_post_by_id posts post_id with
    | none =>
        rw [hf] at h
        exact absurd h (by simp)
    | some p =>
        rw [hf] at h
        injection h with h1 h2 h3
        rw [← h3]
        exact update_in_place_map_id post_id _ posts p hf
          (by simp [applyUpdate, hb])

theorem C4_update_preserves_ids_without_id_key_witness :
    ([⟨1, "a", "nc", none, none⟩] : List Post).map Post.id =
      ([⟨1, "a", "b", none, none⟩] : List Post).map Post.id :=
  C4_update_preserves_ids_without_id_key [⟨1, "a", "b", none, none⟩] 1
    ⟨none, none, some "nc", none, none⟩ rfl 200 (some ⟨1, "a", "nc", none, none⟩)
    [⟨1, "a", "nc", none, none⟩] (by decide)

/-- C5: a valid create request (non-empty `title` and `content` present)
appends exactly one record at the end of the collection and answers 201 with
that stored record; its id is 1 on an empty collection, and otherwise
strictly above every existing id and exactly one greater than some existing
id — i.e. `max id + 1`. -/
theorem C5_create_assigns_next_id (posts : List Post) (b : NewPostBody)
    (h : validate_post_data b = true) :
    ∃ p, add_post posts b = AddResult.resp 201 (some p) (posts ++ [p]) ∧
      p.title = b.title.getD "" ∧ p.content = b.content.getD "" ∧
      (posts = [] → p.id = 1) ∧
      (posts ≠ [] →
        (∀ q ∈ posts, q.id < p.id) ∧ ∃ q ∈ posts, p.id = q.id + 1) := by
  refine ⟨(add_new_post posts b).2, ?_, rfl, rfl, ?_, ?_⟩
  · simp [add_post, h, add_new_post]
  · intro hnil
    subst hnil
    rfl
  · intro hne
    obtain ⟨q0, rest, rfl⟩ : ∃ q0 rest, posts = q0 :: rest := by
      cases posts with
      | nil => exact absurd rfl hne
      | cons q0 rest => exact ⟨q0, rest, rfl⟩
    have hid : (add_new_post (q0 :: rest) b).2.id =
        (rest.map Post.id).foldl max q0.id + 1 := by
      simp [add_new_post, generate_new_id]
    constructor
    · intro q hq
      rw [hid]
      have hle : q.id ≤ (rest.map Post.id).foldl max q0.id := by
        apply le_foldl_max
        rcases List.mem_cons.mp hq with rfl | hq'
        · exact Or.inl rfl
        · exact Or.inr (List.mem_map_of_mem Post.id hq')
      omega
    · rw [hid]
      rcases foldl_max_mem (rest.map Post.id) q0.id with hm | hm
      · exact ⟨q0, List.mem_cons_self _ _, by rw [hm]⟩
      · obtain ⟨q, hq, hqid⟩ := List.mem_map.mp hm
        exact ⟨q, List.mem_cons_of_mem _ hq, by rw [hqid]⟩

theorem C5_create_assigns_next_id_witness :
    ∃ p, add_post [samplePost3] ⟨some "t", some "c", none, none⟩ =
        AddResult.resp 201 (some p) ([samplePost3] ++ [p]) ∧
      p.title = (some "t").getD "" ∧ p.content = (some "c").getD "" ∧
      ([samplePost3] = ([] : List Post) → p.id = 1) ∧
      ([samplePost3] ≠ ([] : List Post) →
        (∀ q ∈ [samplePost3], q.id < p.id) ∧
          ∃ q ∈ [samplePost3], p.id = q.id + 1) :=
  C5_create_assigns_next_id [samplePost3] ⟨some "t", some "c", none, none⟩
    (by decide)

/-- C6: listing with `sort=title&direction=desc` yields the records in
non-increasing title order (case-sensitive), and for every title value the
records carrying it appear in their original relative order (stable
descending); the ascending direction is non-decreasing with the same
stability. -/
theorem C6_sort_title_stable (posts : List Post) :
    (∃ L, sort_posts (some "title") (some "desc") posts = SortRes.pyList L ∧
      L.Pairwise (fun a b => b.title ≤ a.title) ∧
      ∀ t, L.filter (fun q => q.title == t) =
        posts.filter (fun q => q.title == t)) ∧
    (∃ M, sort_posts (some "title") (some "asc") posts = SortRes.pyList M ∧
      M.Pairwise (fun a b => a.title ≤ b.title) ∧
      ∀ t, M.filter (fun q => q.title == t) =
        posts.filter (fun q => q.title == t)) := by
  constructor
  · refine ⟨List.insertionSort (fun a b : Post => b.title ≤ a.title) posts,
      rfl, List.sorted_insertionSort _ posts, ?_⟩
    intro t
    apply filter_insertionSort
    intro x y hx hy
    rw [beq_iff_eq] at hx hy
    rw [hx, hy]
  · refine ⟨List.insertionSort (fun a b : Post => a.title ≤ b.title) posts,
      rfl, List.sorted_insertionSort _ posts, ?_⟩
    intro t
    apply filter_insertionSort
    intro x y hx hy
    rw [beq_iff_eq] at hx hy
    rw [hx, hy]

/-- C7, counterexample: the claim says a search keeps exactly the records
whose chosen field contains the search term as a case-insensitive substring.
The code first strips the term (`search_term.strip()`): with term `"x "` and
a record titled `"x"`, the code returns the record although `"x "` is not a
substring of the title, so the claim's characterisation fails. -/
theorem C7_search_strips_term :
    search_post (some "x ") none none none [⟨1, "x", "c", none, none⟩] =
      SearchResult.resp 200 (some [⟨1, "x", "c", none, none⟩]) ∧
    ¬ specMatches "x " (Post.title ⟨1, "x", "c", none, none⟩) := by
  constructor
  · decide
  · intro hcon
    obtain ⟨u, v, huv⟩ := hcon
    have h1 : (pyLower "x").data.length = 1 := by decide
    have h2 : (pyLower "x ").data.length = 2 := by decide
    rw [huv, List.append_assoc, List.length_append, List.length_append, h2]
      at h1
    omega

/-- C7, amended: a search request with no recognised parameter answers 400;
otherwise exactly one parameter is used, the first present in the priority
order title > content > author > date.  For a title or content search — and
for an author or date search over a collection in which every record carries
the chosen key — the result is a 200 response with the subsequence (original
order) of exactly the records whose chosen field contains the
*whitespace-stripped* search term as a case-insensitive substring, an empty
match set giving 200 with an empty array.  An author or date search over a
collection in which some record lacks the chosen key instead crashes with an
uncaught `KeyError` from `post[key]` (HTTP 500) and returns no result. -/
theorem C7_search_priority_substring
    (titleArg contentArg authorArg dateArg : Option String)
    (posts : List Post) :
    (titleArg = none → contentArg = none → authorArg = none → dateArg = none →
      search_post titleArg contentArg authorArg dateArg posts =
        SearchResult.resp 400 none) ∧
    (∀ term, titleArg = some term →
      ∃ r, search_post titleArg contentArg authorArg dateArg posts =
          SearchResult.resp 200 (some r) ∧ r.Sublist posts ∧
        ∀ p, p ∈ r ↔ p ∈ posts ∧ specMatches (pyStrip term) p.title) ∧
    (∀ term, titleArg = none → contentArg = some term →
      ∃ r, search_post titleArg contentArg authorArg dateArg posts =
          SearchResult.resp 200 (some r) ∧ r.Sublist posts ∧
        ∀ p, p ∈ r ↔ p ∈ posts ∧ specMatches (pyStrip term) p.content) ∧
    (∀ term, titleArg = none → contentArg = none → authorArg = some term →
      ((∀ p ∈ posts, p.author.isSome = true) →
        ∃ r, search_post titleArg contentArg authorArg dateArg posts =
            SearchResult.resp 200 (some r) ∧ r.Sublist posts ∧
          ∀ p, p ∈ r ↔ p ∈ posts ∧
            specMatches (pyStrip term) (p.author.getD "")) ∧
      ((∃ p ∈ posts, p.author = none) →
        search_post titleArg contentArg authorArg dateArg posts =
          SearchResult.crash)) ∧
    (∀ term, titleArg = none → contentArg = none → authorArg = none →
      dateArg = some term →
      ((∀ p ∈ posts, p.date.isSome = true) →
        ∃ r, search_post titleArg contentArg authorArg dateArg posts =
            SearchResult.resp 200 (some r) ∧ r.Sublist posts ∧
          ∀ p, p ∈ r ↔ p ∈ posts ∧
            specMatches (pyStrip term) (p.date.getD "")) ∧
      ((∃ p ∈ posts, p.date = none) →
        search_post titleArg contentArg authorArg dateArg posts =
          SearchResult.crash)) := by
  refine ⟨?_, ?_, ?_, ?_, ?_⟩
  · rintro rfl rfl rfl rfl
    rfl
  · rintro term rfl
    obtain ⟨l, hl⟩ := mapM_field_some "title" posts (fun p _ => rfl)
    refine ⟨posts.filter (fun p => pyIn (pyLower (pyStrip term)) (pyLower ((postField "title" p).getD ""))), by simp only [search_post, get_search_term, hl], List.filter_sublist posts, ?_⟩
    intro p
    rw [List.mem_filter]
    exact and_congr_right fun _ => pyIn_iff _ _
  · rintro term rfl rfl
    obtain ⟨l, hl⟩ := mapM_field_some "content" posts (fun p _ => rfl)
    refine ⟨posts.filter (fun p => pyIn (pyLower (pyStrip term)) (pyLower ((postField "content" p).getD ""))), by simp only [search_post, get_search_term, hl], List.filter_sublist posts, ?_⟩
    intro p
    rw [List.mem_filter]
    exact and_congr_right fun _ => pyIn_iff _ _
  · rintro term rfl rfl rfl
    constructor
    · intro hAuthor
      obtain ⟨l, hl⟩ := mapM_field_some "author" posts hAuthor
      refine ⟨posts.filter (fun p => pyIn (pyLower (pyStrip term)) (pyLower ((postField "author" p).getD ""))), by simp only [search_post, get_search_term, hl], List.filter_sublist posts, ?_⟩
      intro p
      rw [List.mem_filter]
      exact and_congr_right fun _ => pyIn_iff _ _
    · intro hmiss
      have hl : posts.mapM (postField "author") = none :=
        mapM_field_none "author" posts hmiss
      simp only [search_post, get_search_term, hl]
  · rintro term rfl rfl rfl rfl
    constructor
    · intro hDate
      obtain ⟨l, hl⟩ := mapM_field_some "date" posts hDate
      refine ⟨posts.filter (fun p => pyIn (pyLower (pyStrip term)) (pyLower ((postField "date" p).getD ""))), by simp only [search_post, get_search_term, hl], List.filter_sublist posts, ?_⟩
      intro p
      rw [List.mem_filter]
      exact and_congr_right fun _ => pyIn_iff _ _
    · intro hmiss
      have hl : posts.mapM (postField "date") = none :=
        mapM_field_none "date" posts hmiss
      simp only [search_post, get_search_term, hl]

theorem C7_search_priority_substring_witness :
    ∃ r, search_post (some "first") none none none
        [(⟨1, "First post", "c", some "A", some "2024-01-01"⟩ : Post)] =
        SearchResult.resp 200 (some r) ∧
      r.Sublist [(⟨1, "First post", "c", some "A", some "2024-01-01"⟩ : Post)] ∧
      ∀ p, p ∈ r ↔
        p ∈ [(⟨1, "First post", "c", some "A", some "2024-01-01"⟩ : Post)] ∧
          specMatches (pyStrip "first") p.title :=
  (C7_search_priority_substring (some "first") none none none
      [⟨1, "First post", "c", some "A", some "2024-01-01"⟩]).2.1 "first" rfl

/-- C8, counterexample: the claim fails in two ways.  First, it quantifies
over every integer `page` and `limit`: with `page=-1&limit=2` on a 5-item
collection the bounds are `start=-4`, `end=-2`, and Python's negative-index
slicing returns the items at positions 1 and 2, while the half-open index
range `[-4, -2)` holds no valid zero-based position, so the claimed result
is the empty list.  Second, it promises "never an error" also for the sorted
sequence: with a valid sort on an empty collection (`page=1&limit=100`) the
claimed slice of the sorted sequence is the empty list with status 200, but
the endpoint answers 400. -/
theorem C8_negative_page_counterexample :
    (get_posts (some "-1") (some "2") none none samplePosts =
        GetResult.resp 200 (some [samplePost2, samplePost3]) ∧
      idxSlice samplePosts ((-1 - 1) * 2) ((-1 - 1) * 2 + 2) = []) ∧
    (get_posts (some "1") (some "100") (some "title") (some "asc")
        ([] : List Post) = GetResult.resp 400 none ∧
      idxSlice ([] : List Post) ((1 - 1) * 100) ((1 - 1) * 100 + 100) = []) := by
  exact ⟨⟨by decide, by decide⟩, ⟨by decide, by decide⟩⟩

/-- C8, amended: for every list request with integer `page ≥ 1` and
`limit ≥ 0`, the response is 200 with exactly the items of the (possibly
sorted) sequence at zero-based positions in `[(page-1)*limit, (page-1)*limit
+ limit)` — the stored sequence when no `sort` parameter is given, or the
sorted sequence when `sort_posts` produces one and it is non-empty.  A range
beyond the end gives the truncated or empty subsequence, never an error.
(A sorted request whose sorted sequence is empty instead answers 400; that
exclusion is claim C10's behaviour, and the second half of the
counterexample above shows it breaks the unamended claim.) -/
theorem C8_slice_matches_index_range (pageS limitS : String)
    (page limit : Int) (sortArg dirArg : Option String) (posts : List Post)
    (hp : pyInt pageS = some page) (hl : pyInt limitS = some limit)
    (h1 : 1 ≤ page) (h2 : 0 ≤ limit) :
    (sortArg = none →
      get_posts (some pageS) (some limitS) sortArg dirArg posts =
        GetResult.resp 200
          (some (idxSlice posts ((page - 1) * limit)
            ((page - 1) * limit + limit)))) ∧
    (∀ L, sort_posts sortArg dirArg posts = SortRes.pyList L → L ≠ [] →
      get_posts (some pageS) (some limitS) sortArg dirArg posts =
        GetResult.resp 200
          (some (idxSlice L ((page - 1) * limit)
            ((page - 1) * limit + limit)))) := by
  have hpag : pagination (some pageS) (some limitS) =
      some ((page - 1) * limit, (page - 1) * limit + limit) := by
    simp [pagination, hp, hl]
  have hs : 0 ≤ (page - 1) * limit := mul_nonneg (by omega) h2
  constructor
  · rintro rfl
    simp only [get_posts, sort_posts, hpag]
    rw [pySlice_eq_idxSlice posts _ _ hs (by omega)]
  · intro L hL hne
    have hemp : L.isEmpty = false := by
      cases L with
      | nil => exact absurd rfl hne
      | cons a as => rfl
    simp only [get_posts, hL, hemp, hpag, Bool.false_eq_true, if_false]
    rw [pySlice_eq_idxSlice L _ _ hs (by omega)]

theorem C8_slice_matches_index_range_witness :
    get_posts (some "1") (some "1") (some "title") (some "desc")
        [samplePost1] =
      GetResult.resp 200
        (some (idxSlice [samplePost1] ((1 - 1) * 1) ((1 - 1) * 1 + 1))) :=
  (C8_slice_matches_index_range "1" "1" 1 1 (some "title") (some "desc")
      [samplePost1] (by decide) (by decide) (by decide) (by decide)).2
    [samplePost1] rfl (by decide)

/-- C9: updating an existing post with the body `{"content": v}` answers 200
with the updated record whose `content` is `v` and whose `id`, `title`,
`author` and `date` are unchanged; the stored collection replaces only that
record. -/
theorem C9_update_content_preserves_rest (posts : List Post) (post_id : Int)
    (v : String) (p : Post) (h : find_post_by_id posts post_id = some p) :
    update_post posts post_id ⟨none, none, some v, none, none⟩ =
      UpdResult.resp 200 (some { p with content := v })
        (update_in_place posts post_id { p with content := v }) := by
  simp [update_post, UpdateBody.isEmptyDict, validate_post_data_update, h,
    applyUpdate]

theorem C9_update_content_preserves_rest_witness :
    update_post [samplePost1] 1 ⟨none, none, some "new", none, none⟩ =
      UpdResult.resp 200 (some { samplePost1 with content := "new" })
        (update_in_place [samplePost1] 1 { samplePost1 with content := "new" }) :=
  C9_update_content_preserves_rest [samplePost1] 1 "new" samplePost1 (by decide)

/-- C10: on an empty collection, a list request with a valid sort field and
a valid direction answers 400 rather than 200 with `[]`: `get_posts` uses
falsiness to detect the invalid-parameter signal, and the empty sorted list
is falsy too. -/
theorem C10_empty_sorted_list_400 (pageArg limitArg : Option String)
    (field dir : String)
    (hf : field = "title" ∨ field = "content" ∨ field = "author" ∨
      field = "date")
    (hd : dir = "asc" ∨ dir = "desc") :
    get_posts pageArg limitArg (some field) (some dir) [] =
      GetResult.resp 400 none := by
  rcases hf with rfl | rfl | rfl | rfl <;> rcases hd with rfl | rfl <;> rfl

theorem C10_empty_sorted_list_400_witness :
    get_posts none none (some "title") (some "asc") [] =
      GetResult.resp 400 none :=
  C10_empty_sorted_list_400 none none "title" "asc" (Or.inl rfl) (Or.inl rfl)

end Masterblog
